import Mathlib

/-!
Verification of the LINE translation webhook (functions/webhook.js).

The repository file contains two historical variants of the handler,
concatenated: the first (reply-based) variant and the second (push-based)
variant.  Both are embedded here.  JavaScript strings are modelled as
List Char (every code point relevant to the claims is in the BMP, so
JS UTF-16 lengths agree with the character counts used here).
-/

namespace Webhook

/-- The JavaScript whitespace set used by String.prototype.trim:
WhiteSpace plus LineTerminator code points. -/
def isJsWs (c : Char) : Bool :=
  c == ' ' || c == '\t' || c == '\n' || c == '\r' ||
  c == '\u000B' || c == '\u000C' || c == '\u00A0' || c == '\u1680' ||
  ('\u2000' <= c && c <= '\u200A') || c == '\u2028' || c == '\u2029' ||
  c == '\u202F' || c == '\u205F' || c == '\u3000' || c == '\uFEFF'

/-- Remove trailing JS whitespace. -/
def rtrimWs (s : List Char) : List Char :=
  (s.reverse.dropWhile isJsWs).reverse

/-- JS String.prototype.trim: remove leading and trailing whitespace. -/
def jsTrim (s : List Char) : List Char :=
  (rtrimWs s).dropWhile isJsWs

/-- The non-whitespace content of a string, in order. -/
def nonWs (s : List Char) : List Char :=
  s.filter (fun c => !(isJsWs c))

/-- JS Array.prototype.join with separator a single newline. -/
def joinNl : List (List Char) → List Char
  | [] => []
  | [s] => s
  | s :: rest => s ++ '\n' :: joinNl rest

/-- JS String.prototype.split on a single newline. -/
def splitNl : List Char → List (List Char)
  | [] => [[]]
  | c :: cs =>
    if c = '\n' then [] :: splitNl cs
    else
      match splitNl cs with
      | [] => [[c]]
      | l :: ls => (c :: l) :: ls

/-- Source: function hardSplit(s, n). The JS loop pushes s.slice(i, i+n) for
i = 0, n, 2n, ...; the fuel argument (initialised to the length of s, which
the loop index can never exceed) makes that loop structurally recursive.
For n = 0 the JS loop would not terminate on a non-empty input; the model
returns no chunks there and every theorem about hardSplit assumes n > 0. -/
def hardSplitF : Nat → List Char → Nat → List (List Char)
  | 0, _, _ => []
  | _ + 1, [], _ => []
  | _ + 1, _ :: _, 0 => []
  | fuel + 1, a :: l, n + 1 =>
    ((a :: l).take (n + 1)) :: hardSplitF fuel ((a :: l).drop (n + 1)) (n + 1)

def hardSplit (s : List Char) (n : Nat) : List (List Char) :=
  hardSplitF s.length s n

/-- Source: the loop body of splitTextSmart, processing the array of lines
with the accumulator buf.  Faithful details: a chunk is pushed only when
buf.trim() is truthy (non-empty); in the long-line branch buf is reset to
the empty string only inside that truthiness test, so a blank buf is
carried over. -/
def splitLoop (maxLen : Nat) : List (List Char) → List Char → List (List Char)
  | [], buf => if (jsTrim buf).isEmpty then [] else [jsTrim buf]
  | line :: rest, buf =>
    if maxLen < line.length then
      (if (jsTrim buf).isEmpty then [] else [jsTrim buf]) ++ hardSplit line maxLen
        ++ splitLoop maxLen rest (if (jsTrim buf).isEmpty then buf else [])
    else if maxLen < (buf ++ line ++ ['\n']).length then
      (if (jsTrim buf).isEmpty then [] else [jsTrim buf])
        ++ splitLoop maxLen rest (line ++ ['\n'])
    else
      splitLoop maxLen rest (buf ++ line ++ ['\n'])

/-- Source: function splitTextSmart(text, maxLen). -/
def splitTextSmart (text : List Char) (maxLen : Nat) : List (List Char) :=
  if text.length ≤ maxLen then [text]
  else splitLoop maxLen (splitNl text) []

/-- The closed set of direction labels returned by detectDirection
(the source uses the strings JA→TH, TH→JA and EN→JA). -/
inductive Direction where
  | jaTH
  | thJA
  | enJA
deriving DecidableEq

/-- Thai block of the source regex: code points U+0E00 to U+0E7F. -/
def isThaiChar (c : Char) : Bool := '฀' ≤ c && c ≤ '๿'

/-- Japanese ranges of the source regex: hiragana ぁ..ん, katakana ァ..ン,
kanji 一..龯. -/
def isJapaneseChar (c : Char) : Bool :=
  ('ぁ' ≤ c && c ≤ 'ん') || ('ァ' ≤ c && c ≤ 'ン') || ('一' ≤ c && c ≤ '龯')

/-- Latin letters of the source regex: A..Z and a..z. -/
def isLatinChar (c : Char) : Bool :=
  ('A' ≤ c && c ≤ 'Z') || ('a' ≤ c && c ≤ 'z')

/-- Source: function detectDirection(text): Thai first, then Japanese,
then Latin, default JA→TH. -/
def detectDirection (text : List Char) : Direction :=
  if text.any isThaiChar then .thJA
  else if text.any isJapaneseChar then .jaTH
  else if text.any isLatinChar then .enJA
  else .jaTH

/-- A generic JSON value, the shape of parsed response bodies. -/
inductive Json where
  | null
  | bool (b : Bool)
  | num (n : Int)
  | str (s : List Char)
  | arr (items : List Json)
  | obj (fields : List (List Char × Json))

/-- JS optional property access o?.key: a field of an object, undefined
(none) on everything else. -/
def Json.get? (j : Json) (key : List Char) : Option Json :=
  match j with
  | .obj fields => (fields.find? (fun f => f.fst == key)).map (fun f => f.snd)
  | _ => none

/-- JS truthiness of a JSON value. -/
def jsTruthy : Json → Bool
  | .null => false
  | .bool b => b
  | .num n => n != 0
  | .str s => !s.isEmpty
  | .arr _ => true
  | .obj _ => true

mutual
/-- JS String(v) coercion of a JSON value (template literals use the same
conversion). -/
def jsString : Json → List Char
  | .null => ("null").data
  | .bool b => (if b then "true" else "false").data
  | .num n => (toString n).data
  | .str s => s
  | .arr items => jsStringItems items
  | .obj _ => ("[object Object]").data

/-- JS Array.prototype.toString: elements joined by commas, null elements
rendered empty. -/
def jsStringItems : List Json → List Char
  | [] => []
  | [.null] => []
  | [j] => jsString j
  | .null :: rest => ',' :: jsStringItems rest
  | j :: rest => jsString j ++ ',' :: jsStringItems rest
end

/-- JS x?.[0]: element 0 of an array, property 0 of an object, first
character of a string, undefined otherwise. -/
def jsIdx0 : Option Json → Option Json
  | some (.arr (x :: _)) => some x
  | some (.obj fields) => ((fields.find? (fun f => f.fst == ("0").data)).map (fun f => f.snd))
  | some (.str (c :: _)) => some (.str [c])
  | _ => none

/-- Response.ok in fetch: HTTP status in the 200..299 range. -/
def statusOk (status : Nat) : Bool := 200 ≤ status && status ≤ 299

/-- The decimal rendering of a number interpolated into a template string. -/
def numToString (n : Nat) : List Char := (toString n).data

/-- How one HTTP round trip of a client call can end, as observed by the
calling code: either the awaited fetch (or body read) rejects with an
exception carrying a name, or a response arrives with a status and a body.
The body is abstracted by its JSON.parse result: none when parsing the raw
text throws a SyntaxError. -/
inductive FetchOutcome where
  | threw (name : List Char)
  | response (status : Nat) (body : Option Json)

/-- The structured result object of callOpenAIChatCompletions. -/
structure ChatOutcome where
  ok : Bool
  text : List Char
  reason : Option (List Char)
  errorDetail : Option (List Char)
deriving DecidableEq

/-- Source: json?.choices?.[0]?.message?.content. -/
def chatContent (json : Json) : Option Json :=
  ((jsIdx0 (json.get? (("choices").data))).bind
    (fun x => x.get? (("message").data))).bind
    (fun m => m.get? (("content").data))

/-- Source: the error-message probe on a non-ok response body:
j?.error?.message ? String(j.error.message) : "", with the empty string
when JSON.parse of the raw body threw. -/
def chatErrMsg (body : Option Json) : List Char :=
  match body with
  | none => []
  | some j =>
    match j.get? (("error").data) with
    | some e =>
      match e.get? (("message").data) with
      | some m => if jsTruthy m then jsString m else []
      | none => []
    | none => []

/-- Source: async function callOpenAIChatCompletions (first variant).
A body that fails JSON.parse on an ok status throws a SyntaxError inside
the same try block, so it is classified by the catch arm exactly like a
fetch rejection that is not an AbortError. -/
def callOpenAIChatCompletions : FetchOutcome → ChatOutcome
  | .threw name =>
    if name == ("AbortError").data then
      ⟨false, ("timeout").data, some (("timeout").data), some (("timeout").data)⟩
    else
      ⟨false, ("fetch error").data, some (("fetch").data), some (("fetch error").data)⟩
  | .response status body =>
    if !(statusOk status) then
      let msg := chatErrMsg body
      ⟨false, ("OpenAI ").data ++ numToString status, some (("http").data),
        some (if msg.isEmpty then ("status=").data ++ numToString status
              else ("status=").data ++ numToString status ++ (" / ").data ++ msg)⟩
    else
      match body with
      | none =>
        ⟨false, ("fetch error").data, some (("fetch").data), some (("fetch error").data)⟩
      | some json =>
        match chatContent json with
        | some (.str s) =>
          if (jsTrim s).isEmpty then
            ⟨false, ("no choices[0].message.content").data, some (("parse").data),
              some (("parse: content missing").data)⟩
          else ⟨true, jsTrim s, none, none⟩
        | _ =>
          ⟨false, ("no choices[0].message.content").data, some (("parse").data),
            some (("parse: content missing").data)⟩

/-- The result object of callOpenAI (second variant): no structured reason
field, only an ok flag and a text. -/
structure OutcomeV2 where
  ok : Bool
  text : List Char
deriving DecidableEq

/-- Models (v ?? "").trim() where v is an optional JSON value: undefined
and null default to the empty string, a string is trimmed, and calling
.trim() on any other value throws a TypeError (the error side). -/
def jsTrimOf : Option Json → Except Unit (List Char)
  | none => .ok []
  | some .null => .ok []
  | some (.str s) => .ok (jsTrim s)
  | some _ => .error ()

/-- Source: the inner loop of extractTextFromResponses over one content
array: return the first non-empty (c?.text ?? "").trim(). -/
def extractFromContent : List Json → Except Unit (List Char)
  | [] => .ok []
  | c :: cs => do
    let txt ← jsTrimOf (c.get? (("text").data))
    if txt.isEmpty then extractFromContent cs else .ok txt

/-- Source: the outer loop of extractTextFromResponses over json.output:
items whose content is not an array are skipped. -/
def extractFromOutput : List Json → Except Unit (List Char)
  | [] => .ok []
  | item :: rest =>
    match item.get? (("content").data) with
    | some (.arr content) => do
      let txt ← extractFromContent content
      if txt.isEmpty then extractFromOutput rest else .ok txt
    | _ => extractFromOutput rest

/-- Source: function extractTextFromResponses(json). -/
def extractTextFromResponses (json : Json) : Except Unit (List Char) :=
  match json.get? (("output").data) with
  | some (.arr output) => extractFromOutput output
  | _ => .ok []

/-- Source: the success-path extraction of callOpenAI (second variant):
prefer (json?.output_text ?? "").trim(), then the fallback extractor, and
fail with the text "no output_text" when both are empty. -/
def callOpenAIExtract (json : Json) : Except Unit OutcomeV2 := do
  let out ← jsTrimOf (json.get? (("output_text").data))
  if !out.isEmpty then .ok ⟨true, out⟩
  else do
    let alt ← extractTextFromResponses json
    if !alt.isEmpty then .ok ⟨true, alt⟩
    else .ok ⟨false, ("no output_text").data⟩

/-- Source: async function callOpenAI (second variant).  A non-ok status is
reported without reading the body; a JSON.parse failure or a TypeError
thrown during extraction is caught and reported as the text "error". -/
def callOpenAI : FetchOutcome → OutcomeV2
  | .threw name =>
    ⟨false, (if name == ("AbortError").data then ("timeout").data else ("error").data)⟩
  | .response status body =>
    if !(statusOk status) then ⟨false, ("OpenAI ").data ++ numToString status⟩
    else
      match body with
      | none => ⟨false, ("error").data⟩
      | some json =>
        match callOpenAIExtract json with
        | .ok o => o
        | .error _ => ⟨false, ("error").data⟩

/-- The trimmed string value of an optional JSON value, empty when absent
or null (the total fragment of jsTrimOf). -/
def optText (v : Option Json) : List Char :=
  match v with
  | some (.str s) => jsTrim s
  | _ => []

/-- The trimmed text carried by one content item when that text value is a
string, and the empty string when the field is absent or null. -/
def cText (c : Json) : List Char := optText (c.get? (("text").data))

/-- The trimmed candidate texts contributed by one output item: its content
elements in order when content is an array, nothing otherwise. -/
def itemCandidates (item : Json) : List (List Char) :=
  match item.get? (("content").data) with
  | some (.arr content) => content.map cText
  | _ => []

/-- The trimmed top-level output_text candidate. -/
def topText (json : Json) : List Char := optText (json.get? (("output_text").data))

/-- All candidate response locations of the extraction, in the priority
order the code visits them: the top-level output_text, then every content
item of every output item. -/
def candidateList (json : Json) : List (List Char) :=
  topText json ::
    (match json.get? (("output").data) with
     | some (.arr output) => (output.map itemCandidates).flatten
     | _ => [])

/-- The first non-empty string in a list, or the empty string. -/
def firstNonempty (l : List (List Char)) : List Char :=
  (l.filter (fun s => !s.isEmpty)).headD []

/-- Every text-bearing field the extraction touches is absent, null or a
string, so no step of it throws a TypeError. -/
def strOrNullish : Option Json → Bool
  | none => true
  | some .null => true
  | some (.str _) => true
  | some _ => false

def itemWF (item : Json) : Bool :=
  match item.get? (("content").data) with
  | some (.arr content) => content.all (fun c => strOrNullish (c.get? (("text").data)))
  | _ => true

def jsonTextsWF (json : Json) : Bool :=
  strOrNullish (json.get? (("output_text").data)) &&
  (match json.get? (("output").data) with
   | some (.arr output) => output.all itemWF
   | _ => true)

/-- Follows the amended claim wording: the successful extraction returns
the FIRST non-empty candidate in priority order, or the typed
no-output_text failure when every candidate is empty. -/
def firstCandidate (json : Json) : OutcomeV2 :=
  if (firstNonempty (candidateList json)).isEmpty then ⟨false, ("no output_text").data⟩
  else ⟨true, firstNonempty (candidateList json)⟩

/-- Follows the original claim wording (C5 as stated): concatenate ALL
candidate values found across all locations, joined by newlines. -/
def specExtractAll (json : Json) : List Char :=
  joinNl ((candidateList json).filter (fun s => !s.isEmpty))

/-- The literal failure-marker string the handler scans for. -/
def failMarker : List Char := ("（翻訳に失敗しました）").data

/-- The failure text of translateFast when no API key is configured. -/
def apiKeyMissingMsg : List Char := ("（翻訳に失敗しました：APIキー未設定）").data

/-- The generic failure notice sent by the first (reply-based) handler. -/
def failureNotice : List Char :=
  ("（翻訳に失敗しました）もう一度送ってください。長文は分けると安定します。※翻訳不要なら先頭に //").data

/-- The generic failure notice of the second (push-based) handler, sent
only from its catch arm. -/
def failureNoticeV2 : List Char :=
  ("（翻訳に失敗しました）もう一度送ってください。長文の場合は分けて送ると安定します。※翻訳不要なら先頭に //").data

/-- Source: function dirLabel(dir) inside the first handler.  Its final
return of a bare globe label is unreachable because detectDirection only
produces the three labels. -/
def dirLabel : Direction → List Char
  | .jaTH => ("🇯🇵→🇹🇭").data
  | .thJA => ("🇹🇭→🇯🇵").data
  | .enJA => ("🌐→🇯🇵").data

/-- The direction label strings of the second handler template. -/
def dirString : Direction → List Char
  | .jaTH => ("JA→TH").data
  | .thJA => ("TH→JA").data
  | .enJA => ("EN→JA").data

/-- Source: async function translateFast (first variant), given the outcome
of its single callOpenAIChatCompletions round trip. -/
def translateFast (apiKey : List Char) (r : ChatOutcome) : List Char :=
  if apiKey.isEmpty then apiKeyMissingMsg
  else if r.ok then r.text
  else failMarker

/-- Source: async function translateFast (second variant), given the two
callOpenAI attempt outcomes. -/
def translateFastV2 (apiKey : List Char) (first second : OutcomeV2) : List Char :=
  if apiKey.isEmpty then apiKeyMissingMsg
  else if first.ok then first.text
  else if second.ok then second.text
  else failMarker

/-- Prefix test: leadMatch pat s is true when pat starts s. -/
def leadMatch : List Char → List Char → Bool
  | [], _ => true
  | _ :: _, [] => false
  | a :: l, b :: m => a == b && leadMatch l m

/-- JS String.prototype.includes: pat occurs contiguously inside s. -/
def jsIncludes : List Char → List Char → Bool
  | [], pat => leadMatch pat []
  | c :: rest, pat => leadMatch pat (c :: rest) || jsIncludes rest pat

/-- Source: the reply assembly of the first handler (lines 76..93): if any
translated part includes the failure marker, the generic failure notice is
sent; otherwise the direction label and the newline-joined parts. -/
def assembleReply (dir : Direction) (parts : List (List Char)) : List Char :=
  if parts.any (fun p => jsIncludes p failMarker) then failureNotice
  else dirLabel dir ++ '\n' :: joinNl parts

/-- The translation path of the first handler: translate every chunk
outcome, then assemble. -/
def translationReply (dir : Direction) (apiKey : List Char) (rs : List ChatOutcome) : List Char :=
  assembleReply dir (rs.map (translateFast apiKey))

/-- Source: the reply assembly of the second handler (lines 330..340): the
parts are joined and sent unconditionally, with no failure scan. -/
def assembleReplyV2 (dir : Direction) (parts : List (List Char)) : List Char :=
  '【' :: dirString dir ++ '】' :: '\n' :: joinNl parts

/-- The translation path of the second handler: translate every chunk
(two attempts each), then assemble. -/
def translationReplyV2 (dir : Direction) (apiKey : List Char)
    (rs : List (OutcomeV2 × OutcomeV2)) : List Char :=
  assembleReplyV2 dir (rs.map (fun r => translateFastV2 apiKey r.fst r.snd))

/-- The source field of an inbound event. -/
structure LineSource where
  userId : Option (List Char)
  groupId : Option (List Char)
  roomId : Option (List Char)
deriving DecidableEq

/-- The parts of an inbound event that delivery looks at. -/
structure LineEvent where
  replyToken : Option (List Char)
  source : Option LineSource
deriving DecidableEq

/-- JS truthiness of an optional string: present and non-empty. -/
def truthyOpt : Option (List Char) → Bool
  | some s => !s.isEmpty
  | none => false

/-- Source: function getPushTarget(ev): userId, then groupId, then roomId,
each under a truthiness test; null when none is present. -/
def getPushTarget (ev : LineEvent) : Option (List Char) :=
  let s := ev.source.getD ⟨none, none, none⟩
  if truthyOpt s.userId then s.userId
  else if truthyOpt s.groupId then s.groupId
  else if truthyOpt s.roomId then s.roomId
  else none

/-- How the awaited reply fetch can end: a rejection, or a response whose
ok flag is the only part the code inspects. -/
inductive ReplyApiResult where
  | threw
  | response (ok : Bool)
deriving DecidableEq

/-- What sendLine did, as observed by its caller. -/
inductive Delivery where
  | nothing
  | replied
  | pushed (target : List Char)
  | raised
deriving DecidableEq

/-- The push half of sendLine: silently return when no target resolves,
otherwise issue the push fetch (whose response is never inspected; its
rejection propagates). -/
def pushStep (ev : LineEvent) (pushThrows : Bool) : Delivery :=
  match getPushTarget ev with
  | none => .nothing
  | some t => if pushThrows then .raised else .pushed t

/-- Source: async function sendLine(ev, text, token) (first variant).
There is no try/catch: a rejection of the awaited reply fetch propagates
to the caller; only a delivered non-ok response falls through to push. -/
def sendLine (ev : LineEvent) (token : Option (List Char))
    (replyRes : ReplyApiResult) (pushThrows : Bool) : Delivery :=
  if !(truthyOpt token) then .nothing
  else if truthyOpt ev.replyToken then
    match replyRes with
    | .threw => .raised
    | .response true => .replied
    | .response false => pushStep ev pushThrows
  else pushStep ev pushThrows

/-- Source: async function debugReport(apiKey) (first variant), given the
outcome of its callOpenAIChatCompletions self-test.  That call catches all
its own exceptions, so the catch arm of debugReport is unreachable and the
report is determined by the key and the outcome. -/
def debugReport (apiKey : List Char) (up : ChatOutcome) : List Char :=
  if apiKey.isEmpty then
    ("【DEBUG】OPENAI_API_KEY が読めていません（undefined）。Pages → Settings → Variables（Production）を確認して再デプロイしてください。").data
  else if up.ok then
    ("【DEBUG】OPENAI_API_KEY length=").data ++ numToString apiKey.length
      ++ (" / OpenAI status=200").data
  else
    ("【DEBUG】OPENAI_API_KEY length=").data ++ numToString apiKey.length
      ++ (" / ").data ++
      (match up.errorDetail with
       | some d => if d.isEmpty then up.text else d
       | none => up.text)

/-- Source: async function debugReport(apiKey) (second variant), given the
outcome of its raw fetch to the completion API. -/
def debugReportV2 (apiKey : List Char) (fr : FetchOutcome) : List Char :=
  if apiKey.isEmpty then
    ("【DEBUG】OPENAI_API_KEY が読めていません（undefined）。Cloudflare Pages → Settings → Variables（Production）を確認して再デプロイしてください。").data
  else
    match fr with
    | .threw name =>
      ("【DEBUG】OPENAI_API_KEY length=").data ++ numToString apiKey.length
        ++ (" / OpenAI fetch error=").data
        ++ (if name.isEmpty then ("error").data else name)
    | .response status body =>
      ("【DEBUG】OPENAI_API_KEY length=").data ++ numToString apiKey.length
        ++ (" / OpenAI status=").data ++ numToString status
        ++ (match body with
            | some j =>
              match j.get? (("error").data) with
              | some e =>
                match e.get? (("message").data) with
                | some m => if jsTruthy m then (" / ").data ++ jsString m else []
                | none => []
              | none => []
            | none => [])

theorem length_dropWhile_le (p : Char → Bool) (l : List Char) :
    (l.dropWhile p).length ≤ l.length := by
  induction l with
  | nil => simp [List.dropWhile]
  | cons a l ih =>
    simp only [List.dropWhile]
    cases p a <;> simp <;> omega

theorem nonWs_dropWhile (s : List Char) :
    nonWs (s.dropWhile isJsWs) = nonWs s := by
  induction s with
  | nil => rfl
  | cons a s ih =>
    simp only [List.dropWhile]
    cases h : isJsWs a <;> simp [nonWs, List.filter, h] at ih ⊢ <;> simp [ih]

theorem nonWs_reverse (s : List Char) : nonWs s.reverse = (nonWs s).reverse := by
  simp [nonWs, List.filter_reverse]

theorem nonWs_rtrim (s : List Char) : nonWs (rtrimWs s) = nonWs s := by
  unfold rtrimWs
  rw [nonWs_reverse, nonWs_dropWhile, nonWs_reverse, List.reverse_reverse]

theorem nonWs_jsTrim (s : List Char) : nonWs (jsTrim s) = nonWs s := by
  unfold jsTrim
  rw [nonWs_dropWhile, nonWs_rtrim]

theorem nonWs_append (a b : List Char) : nonWs (a ++ b) = nonWs a ++ nonWs b := by
  simp [nonWs, List.filter_append]

theorem nonWs_of_trimEmpty {s : List Char} (h : jsTrim s = []) : nonWs s = [] := by
  rw [← nonWs_jsTrim, h]; rfl

theorem nonWs_nil : nonWs [] = [] := rfl

theorem isEmpty_true {l : List Char} (h : l.isEmpty = true) : l = [] := by
  cases l with
  | nil => rfl
  | cons a l => simp at h

theorem rtrim_snoc_nl (v : List Char) : rtrimWs (v ++ ['\n']) = rtrimWs v := by
  unfold rtrimWs
  rw [List.reverse_append]
  simp [List.dropWhile, isJsWs]

theorem rtrim_length_le (s : List Char) : (rtrimWs s).length ≤ s.length := by
  unfold rtrimWs
  simpa using (length_dropWhile_le isJsWs s.reverse)

theorem jsTrim_length_le (s : List Char) : (jsTrim s).length ≤ s.length := by
  unfold jsTrim
  exact (length_dropWhile_le _ _).trans (rtrim_length_le s)

theorem jsTrim_snoc_nl_length (v : List Char) :
    (jsTrim (v ++ ['\n'])).length ≤ v.length := by
  unfold jsTrim
  rw [rtrim_snoc_nl]
  exact (length_dropWhile_le _ _).trans (rtrim_length_le v)

theorem joinNl_cons (l : List Char) (ls : List (List Char)) :
    nonWs (joinNl (l :: ls)) = nonWs l ++ nonWs (joinNl ls) := by
  cases ls with
  | nil => simp [joinNl, nonWs]
  | cons m ms =>
    show nonWs (l ++ '\n' :: joinNl (m :: ms)) = _
    rw [nonWs_append]
    have hnl : (!(isJsWs '\n')) = false := by decide
    simp [nonWs, List.filter_cons, hnl]

theorem splitNl_ne_nil (s : List Char) : splitNl s ≠ [] := by
  cases s with
  | nil => simp [splitNl]
  | cons c cs =>
    simp only [splitNl]
    split
    · simp
    · split <;> simp

theorem joinNl_splitNl (s : List Char) : joinNl (splitNl s) = s := by
  induction s with
  | nil => rfl
  | cons c cs ih =>
    simp only [splitNl]
    split
    · rename_i hc
      subst hc
      match h : splitNl cs with
      | [] => exact absurd h (splitNl_ne_nil cs)
      | l :: ls =>
        rw [h] at ih
        show joinNl ([] :: l :: ls) = _
        show [] ++ '\n' :: joinNl (l :: ls) = _
        simp [ih]
    · match h : splitNl cs with
      | [] => exact absurd h (splitNl_ne_nil cs)
      | l :: ls =>
        rw [h] at ih
        cases ls with
        | nil =>
          show joinNl [c :: l] = _
          simp only [joinNl] at ih ⊢
          simp [ih]
        | cons m ms =>
          show joinNl ((c :: l) :: m :: ms) = _
          show (c :: l) ++ '\n' :: joinNl (m :: ms) = _
          simp only [joinNl] at ih
          simp [← ih]

theorem splitNl_no_nl (s : List Char) (h : '\n' ∉ s) : splitNl s = [s] := by
  induction s with
  | nil => rfl
  | cons c cs ih =>
    simp only [splitNl]
    have hc : ¬(c = '\n') := fun hc => h (hc ▸ List.mem_cons_self c cs)
    rw [if_neg hc, ih (fun hm => h (List.mem_cons_of_mem c hm))]

theorem hardSplitF_flatten (n : Nat) :
    ∀ fuel s, s.length ≤ fuel → (hardSplitF fuel s (n + 1)).flatten = s := by
  intro fuel
  induction fuel with
  | zero =>
    intro s hs
    have : s = [] := List.length_eq_zero.mp (Nat.le_zero.mp hs)
    subst this
    rfl
  | succ f ih =>
    intro s hs
    match s with
    | [] => rfl
    | a :: l =>
      show ((a :: l).take (n + 1) :: hardSplitF f ((a :: l).drop (n + 1)) (n + 1)).flatten = _
      rw [List.flatten_cons]
      rw [ih ((a :: l).drop (n + 1)) (by simp [List.length_drop] at hs ⊢; omega)]
      exact List.take_append_drop (n + 1) (a :: l)

theorem hardSplit_flatten (s : List Char) (n : Nat) :
    (hardSplit s (n + 1)).flatten = s :=
  hardSplitF_flatten n s.length s le_rfl

theorem hardSplitF_chunk_le (n : Nat) :
    ∀ fuel s c, c ∈ hardSplitF fuel s n → c.length ≤ n := by
  intro fuel
  induction fuel with
  | zero => intro s c hc; simp [hardSplitF] at hc
  | succ f ih =>
    intro s c hc
    match s, n with
    | [], _ => simp [hardSplitF] at hc
    | a :: l, 0 => simp [hardSplitF] at hc
    | a :: l, n + 1 =>
      simp only [hardSplitF, List.mem_cons] at hc
      rcases hc with h | h
      · subst h; simpa using List.length_take_le (n + 1) (a :: l)
      · exact ih _ _ h

theorem hardSplit_chunk_le (s : List Char) (n : Nat) :
    ∀ c ∈ hardSplit s n, c.length ≤ n :=
  fun c hc => hardSplitF_chunk_le n s.length s c hc

theorem hardSplitF_length (n : Nat) :
    ∀ fuel s, s.length ≤ fuel →
      (hardSplitF fuel s (n + 1)).length = (s.length + n) / (n + 1) := by
  intro fuel
  induction fuel with
  | zero =>
    intro s hs
    have : s = [] := List.length_eq_zero.mp (Nat.le_zero.mp hs)
    subst this
    simp [hardSplitF, Nat.div_eq_of_lt]
  | succ f ih =>
    intro s hs
    match s with
    | [] => simp [hardSplitF, Nat.div_eq_of_lt]
    | a :: l =>
      show (_ :: hardSplitF f ((a :: l).drop (n + 1)) (n + 1)).length = _
      rw [List.length_cons,
        ih ((a :: l).drop (n + 1)) (by simp [List.length_drop] at hs ⊢; omega)]
      rw [List.length_drop]
      rcases Nat.lt_or_ge l.length (n + 1) with hlt | hge
      · have h1 : (a :: l).length - (n + 1) = 0 := by simp; omega
        rw [h1]
        have h2 : n / (n + 1) = 0 := Nat.div_eq_of_lt (by omega)
        rw [Nat.zero_add, h2]
        have hle : 1 * (n + 1) ≤ (a :: l).length + n := by simp; omega
        have hlt2 : (a :: l).length + n < 2 * (n + 1) := by simp; omega
        have := Nat.div_eq_of_lt_le hle hlt2
        omega
      · have h1 : (a :: l).length - (n + 1) + n + (n + 1) = (a :: l).length + n := by
          simp; omega
        calc ((a :: l).length - (n + 1) + n) / (n + 1) + 1
            = ((a :: l).length - (n + 1) + n + (n + 1)) / (n + 1) := by
              rw [Nat.add_div_right _ (Nat.succ_pos n)]
          _ = ((a :: l).length + n) / (n + 1) := by rw [h1]

theorem hardSplit_length (s : List Char) (n : Nat) :
    (hardSplit s (n + 1)).length = (s.length + n) / (n + 1) :=
  hardSplitF_length n s.length s le_rfl

/-- The invariant maintained by the splitTextSmart accumulator: buf is
empty, or is a newline-terminated string whose body fits in maxLen. -/
def BufOk (maxLen : Nat) (buf : List Char) : Prop :=
  buf = [] ∨ ∃ v, buf = v ++ ['\n'] ∧ v.length ≤ maxLen

theorem bufOk_trim_le {maxLen : Nat} {buf : List Char} (h : BufOk maxLen buf) :
    (jsTrim buf).length ≤ maxLen := by
  rcases h with h | ⟨v, hv, hle⟩
  · subst h; simp [jsTrim, rtrimWs]
  · subst hv; exact (jsTrim_snoc_nl_length v).trans hle

theorem splitLoop_chunk_le (maxLen : Nat) :
    ∀ lines buf, BufOk maxLen buf →
      ∀ c ∈ splitLoop maxLen lines buf, c.length ≤ maxLen := by
  intro lines
  induction lines with
  | nil =>
    intro buf hbuf c hc
    simp only [splitLoop] at hc
    split at hc
    · simp at hc
    · simp at hc
      subst hc
      exact bufOk_trim_le hbuf
  | cons line rest ih =>
    intro buf hbuf c hc
    simp only [splitLoop] at hc
    split at hc
    · rw [List.mem_append, List.mem_append] at hc
      rcases hc with (hc | hc) | hc
      · split at hc <;> simp at hc
        subst hc
        exact bufOk_trim_le hbuf
      · exact hardSplit_chunk_le line maxLen c hc
      · split at hc
        · exact ih buf hbuf c hc
        · exact ih [] (Or.inl rfl) c hc
    · split at hc
      · rw [List.mem_append] at hc
        rcases hc with hc | hc
        · split at hc <;> simp at hc
          subst hc
          exact bufOk_trim_le hbuf
        · refine ih (line ++ ['\n']) (Or.inr ⟨line, rfl, ?_⟩) c hc
          omega
      · rename_i h1 h2
        refine ih (buf ++ line ++ ['\n']) (Or.inr ⟨buf ++ line, by simp, ?_⟩) c hc
        rw [Nat.not_lt] at h2
        simp [List.length_append] at h2 ⊢
        omega

theorem splitLoop_content (maxLen : Nat) (hpos : 0 < maxLen) :
    ∀ lines buf,
      nonWs (splitLoop maxLen lines buf).flatten = nonWs buf ++ nonWs (joinNl lines) := by
  obtain ⟨m, rfl⟩ : ∃ m, maxLen = m + 1 := ⟨maxLen - 1, by omega⟩
  intro lines
  induction lines with
  | nil =>
    intro buf
    simp only [splitLoop, joinNl]
    by_cases h : (jsTrim buf).isEmpty = true
    · have hb : nonWs buf = [] := nonWs_of_trimEmpty (isEmpty_true h)
      simp [isEmpty_true h, nonWs_nil, hb]
    · simp only [if_neg h, List.flatten_cons, List.flatten_nil, List.append_nil]
      rw [nonWs_jsTrim]
      simp [nonWs_nil]
  | cons line rest ih =>
    intro buf
    rw [joinNl_cons]
    simp only [splitLoop]
    split
    · by_cases h : (jsTrim buf).isEmpty = true
      · have hb : nonWs buf = [] := nonWs_of_trimEmpty (isEmpty_true h)
        simp only [if_pos h, List.nil_append, List.flatten_append, nonWs_append,
          hardSplit_flatten]
        rw [ih buf]
        simp [hb, List.append_assoc]
      · simp only [if_neg h, List.flatten_append, List.flatten_cons, List.flatten_nil,
          List.append_nil, nonWs_append, hardSplit_flatten]
        rw [ih [], nonWs_jsTrim]
        simp [nonWs_nil, List.append_assoc]
    · split
      · have hnl : nonWs ['\n'] = [] := by decide
        by_cases h : (jsTrim buf).isEmpty = true
        · have hb : nonWs buf = [] := nonWs_of_trimEmpty (isEmpty_true h)
          simp only [if_pos h, List.nil_append]
          rw [ih (line ++ ['\n']), nonWs_append, hnl]
          simp [hb]
        · simp only [if_neg h, List.flatten_append, List.flatten_cons, List.flatten_nil,
            List.append_nil, nonWs_append]
          rw [ih (line ++ ['\n']), nonWs_append, hnl, nonWs_jsTrim]
          simp [List.append_assoc]
      · have hnl : nonWs ['\n'] = [] := by decide
        rw [ih (buf ++ line ++ ['\n']), nonWs_append, nonWs_append, hnl]
        simp [List.append_assoc]

theorem nonWs_joinNl (ls : List (List Char)) : nonWs (joinNl ls) = nonWs ls.flatten := by
  induction ls with
  | nil => rfl
  | cons l ls ih => rw [joinNl_cons, List.flatten_cons, nonWs_append, ih]

theorem seg3000 {text : List Char} (hlen : text.length = 3000) (hnl : '\n' ∉ text) :
    splitTextSmart text 1400 = hardSplit text 1400 := by
  unfold splitTextSmart
  rw [if_neg (by omega), splitNl_no_nl text hnl]
  have h1 : 1400 < text.length := by omega
  have e : jsTrim ([] : List Char) = [] := rfl
  simp [splitLoop, e, h1]

/-- C2 (confirmed): detectDirection is a total function into the three
labels, with Thai codepoints deciding first, then Japanese codepoints,
then Latin letters, and JA→TH as the default. -/
theorem c2_direction_detector (t : List Char) :
    (detectDirection t = .thJA ∨ detectDirection t = .jaTH ∨ detectDirection t = .enJA) ∧
    (t.any isThaiChar = true → detectDirection t = .thJA) ∧
    (t.any isThaiChar = false → t.any isJapaneseChar = true → detectDirection t = .jaTH) ∧
    (t.any isThaiChar = false → t.any isJapaneseChar = false →
      t.any isLatinChar = true → detectDirection t = .enJA) ∧
    (t.any isThaiChar = false → t.any isJapaneseChar = false →
      t.any isLatinChar = false → detectDirection t = .jaTH) := by
  rcases Bool.eq_false_or_eq_true (t.any isThaiChar) with h1 | h1 <;>
    rcases Bool.eq_false_or_eq_true (t.any isJapaneseChar) with h2 | h2 <;>
      rcases Bool.eq_false_or_eq_true (t.any isLatinChar) with h3 | h3 <;>
        simp [detectDirection, h1, h2, h3]

/-- Witness for C2 at the four scenario inputs of the spec. -/
theorem c2_direction_detector_witness :
    detectDirection (("สวัสดี").data) = .thJA ∧
    detectDirection (("こんにちは").data) = .jaTH ∧
    detectDirection (("Hello").data) = .enJA ∧
    detectDirection (("123").data) = .jaTH :=
  ⟨(c2_direction_detector _).2.1 (by decide),
   (c2_direction_detector _).2.2.1 (by decide) (by decide),
   (c2_direction_detector _).2.2.2.1 (by decide) (by decide) (by decide),
   (c2_direction_detector _).2.2.2.2 (by decide) (by decide) (by decide)⟩

/-- C3 (confirmed): for a positive maximum no chunk of splitTextSmart
exceeds it, and a 3000-character newline-free input at maximum 1400 gives
exactly 3 chunks, each of length at most 1400. -/
theorem c3_chunk_length_bound (text : List Char) (maxLen : Nat) (hpos : 0 < maxLen) :
    (∀ c ∈ splitTextSmart text maxLen, c.length ≤ maxLen) ∧
    (text.length = 3000 → '\n' ∉ text →
      (splitTextSmart text 1400).length = 3 ∧
      ∀ c ∈ splitTextSmart text 1400, c.length ≤ 1400) := by
  constructor
  · intro c hc
    unfold splitTextSmart at hc
    split at hc
    · rename_i h
      simp at hc
      subst hc
      exact h
    · exact splitLoop_chunk_le maxLen _ [] (Or.inl rfl) c hc
  · intro hlen hnl
    rw [seg3000 hlen hnl]
    constructor
    · have := hardSplit_length text 1399
      rw [hlen] at this
      norm_num at this
      exact this
    · exact hardSplit_chunk_le text 1400

/-- Witness for C3 on the concrete 3000-character input of the scenario. -/
theorem c3_chunk_length_bound_witness :
    (splitTextSmart (List.replicate 3000 'あ') 1400).length = 3 :=
  ((c3_chunk_length_bound (List.replicate 3000 'あ') 1400 (by decide)).2
    (List.length_replicate 3000 'あ')
    (fun h => absurd (List.eq_of_mem_replicate h) (by decide))).1

/-- C4 (corrected): the newline-join of the chunks preserves exactly the
non-whitespace content of the original text, in order.  The original
claim, that the join reconstructs the text up to trimming of purely blank
lines and per-chunk trailing whitespace, fails: hard-slicing inserts
newline characters that the original never contained, and per-chunk
trimming also removes leading whitespace. -/
theorem c4_amended_content_preserved (text : List Char) (maxLen : Nat)
    (hpos : 0 < maxLen) :
    nonWs (joinNl (splitTextSmart text maxLen)) = nonWs text := by
  unfold splitTextSmart
  split
  · rfl
  · calc nonWs (joinNl (splitLoop maxLen (splitNl text) []))
        = nonWs (splitLoop maxLen (splitNl text) []).flatten := nonWs_joinNl _
      _ = nonWs [] ++ nonWs (joinNl (splitNl text)) := splitLoop_content maxLen hpos _ []
      _ = nonWs text := by rw [joinNl_splitNl]; rfl

/-- Witness for C4 on a concrete multi-line input. -/
theorem c4_amended_content_preserved_witness :
    nonWs (joinNl (splitTextSmart (("ab cd ef").data) 3)) = nonWs (("ab cd ef").data) :=
  c4_amended_content_preserved (("ab cd ef").data) 3 (by decide)

/-- Counterexample for C4 as stated: on a 10-character input with no
whitespace at all, the newline-join of the chunks contains two newline
characters the original never had.  Trimming blank lines or trailing
whitespace only ever deletes characters, so no reading of the stated
claim relates these two strings. -/
theorem c4_counterexample :
    joinNl (splitTextSmart (("aaaaabbbbb").data) 4) = ("aaaa\nabbb\nbb").data ∧
    '\n' ∈ joinNl (splitTextSmart (("aaaaabbbbb").data) 4) ∧
    '\n' ∉ (("aaaaabbbbb").data) ∧
    joinNl (splitTextSmart (("aaaaabbbbb").data) 4) ≠ (("aaaaabbbbb").data) :=
  ⟨by decide, by decide, by decide, by decide⟩

/-- C8 (corrected): an input no longer than the maximum is returned as the
single chunk, unchanged.  The stated claim, that the chunk equals the
TRIMMED input, fails on any input that is not already trimmed; at every
call site the handler passes pre-trimmed text, for which the two agree. -/
theorem c8_amended_single_chunk (text : List Char) (maxLen : Nat)
    (h : text.length ≤ maxLen) : splitTextSmart text maxLen = [text] := by
  unfold splitTextSmart
  rw [if_pos h]

/-- Witness for C8. -/
theorem c8_amended_single_chunk_witness :
    splitTextSmart (("abc").data) 1400 = [("abc").data] :=
  c8_amended_single_chunk (("abc").data) 1400 (by decide)

/-- Counterexample for C8 as stated: a two-character input with leading
whitespace fits the maximum, and the single returned chunk is the input
itself, not the trimmed input. -/
theorem c8_counterexample :
    splitTextSmart ((" a").data) 1400 = [(" a").data] ∧
    jsTrim ((" a").data) = ("a").data ∧
    ((" a").data) ≠ (("a").data) :=
  ⟨by decide, by decide, by decide⟩

theorem isEmpty_false {l : List Char} (h : l ≠ []) : l.isEmpty = false := by
  cases l with
  | nil => exact absurd rfl h
  | cons a l => rfl

/-- C1 (corrected): in the first (reply-based) handler, when the API key
is non-empty, a failed chunk outcome makes the assembled message exactly
the generic failure notice.  The stated claim fails in two ways shown by
the counterexample: with an empty API key the per-chunk failure text does
not contain the scanned marker and is joined into a normal reply, and the
second (push-based) handler never substitutes the notice at all. -/
theorem c1_amended_all_or_nothing (dir : Direction) (apiKey : List Char)
    (rs : List ChatOutcome) (hkey : apiKey ≠ []) (hfail : ∃ r ∈ rs, r.ok = false) :
    translationReply dir apiKey rs = failureNotice := by
  obtain ⟨r, hr, hok⟩ := hfail
  have hkey' : apiKey.isEmpty = false := isEmpty_false hkey
  have hpart : translateFast apiKey r = failMarker := by
    simp [translateFast, hkey', hok]
  have hany : (rs.map (translateFast apiKey)).any (fun p => jsIncludes p failMarker) = true :=
    List.any_eq_true.mpr ⟨failMarker, List.mem_map.mpr ⟨r, hr, hpart⟩, by decide⟩
  unfold translationReply assembleReply
  rw [if_pos hany]

/-- Witness for C1: one failed chunk with a key present gives the notice. -/
theorem c1_amended_all_or_nothing_witness :
    translationReply .jaTH (("K").data)
      [⟨false, ("OpenAI 500").data, some (("http").data), some (("status=500").data)⟩]
      = failureNotice :=
  c1_amended_all_or_nothing .jaTH (("K").data)
    [⟨false, ("OpenAI 500").data, some (("http").data), some (("status=500").data)⟩]
    (by decide) (by decide)

/-- Counterexample for C1 as stated: the second handler joins a translated
chunk with a failed one into a mixed message that is not the notice, and
the first handler with an empty API key sends the joined key-missing text
instead of the notice. -/
theorem c1_counterexample :
    translationReplyV2 .thJA (("K").data)
        [(⟨true, ("こんにちは").data⟩, ⟨true, ("こんにちは").data⟩),
         (⟨false, ("timeout").data⟩, ⟨false, ("timeout").data⟩)]
      = ("【TH→JA】\nこんにちは\n（翻訳に失敗しました）").data ∧
    ("【TH→JA】\nこんにちは\n（翻訳に失敗しました）").data ≠ failureNotice ∧
    ("【TH→JA】\nこんにちは\n（翻訳に失敗しました）").data ≠ failureNoticeV2 ∧
    jsIncludes (("【TH→JA】\nこんにちは\n（翻訳に失敗しました）").data) (("こんにちは").data) = true ∧
    translationReply .jaTH []
        [⟨false, ("OpenAI 500").data, some (("http").data), some (("status=500").data)⟩]
      = ("🇯🇵→🇹🇭\n（翻訳に失敗しました：APIキー未設定）").data ∧
    ("🇯🇵→🇹🇭\n（翻訳に失敗しました：APIキー未設定）").data ≠ failureNotice :=
  ⟨by decide, by decide, by decide, by decide, by decide, by decide⟩

/-- C10 (confirmed): chunk failure is decided by scanning each translated
part for the literal marker substring, so a successful translation that
happens to contain the marker makes the handler send the generic failure
notice instead of the translation. -/
theorem c10_marker_scan (dir : Direction) (apiKey : List Char) (rs : List ChatOutcome)
    (r : ChatOutcome) (hkey : apiKey ≠ []) (hr : r ∈ rs) (hok : r.ok = true)
    (hmk : jsIncludes r.text failMarker = true) :
    translationReply dir apiKey rs = failureNotice := by
  have hkey' : apiKey.isEmpty = false := isEmpty_false hkey
  have hpart : translateFast apiKey r = r.text := by simp [translateFast, hkey', hok]
  have hany : (rs.map (translateFast apiKey)).any (fun p => jsIncludes p failMarker) = true :=
    List.any_eq_true.mpr ⟨r.text, List.mem_map.mpr ⟨r, hr, hpart⟩, hmk⟩
  unfold translationReply assembleReply
  rw [if_pos hany]

/-- Witness for C10: a successful chunk whose text contains the marker. -/
theorem c10_marker_scan_witness :
    translationReply .jaTH (("K").data)
      [⟨true, ("X（翻訳に失敗しました）Y").data, none, none⟩] = failureNotice :=
  c10_marker_scan .jaTH (("K").data)
    [⟨true, ("X（翻訳に失敗しました）Y").data, none, none⟩]
    ⟨true, ("X（翻訳に失敗しました）Y").data, none, none⟩
    (by decide) (by decide) rfl (by decide)

/-- A concrete event with a reply token and a userId push target, used by
the delivery theorems. -/
def evWit : LineEvent := ⟨some (("R1").data), some ⟨some (("U1").data), none, none⟩⟩

/-- C7 (corrected): delivery prefers the reply token; a DELIVERED non-ok
reply response falls back to push, addressed to the first present
identifier among userId, groupId, roomId; with no token or no resolvable
target the message is silently dropped.  The stated claim fails at the
transport level: a rejected reply fetch propagates as an exception (there
is no try/catch in sendLine), it does not fall back to push. -/
theorem c7_amended_delivery (ev : LineEvent) (token : Option (List Char)) (pt : Bool) :
    (truthyOpt token = true → truthyOpt ev.replyToken = true →
      sendLine ev token (.response true) pt = .replied) ∧
    (truthyOpt token = true → truthyOpt ev.replyToken = true →
      sendLine ev token (.response false) pt = pushStep ev pt) ∧
    (truthyOpt token = true → truthyOpt ev.replyToken = true →
      sendLine ev token .threw pt = .raised) ∧
    (truthyOpt token = true → truthyOpt ev.replyToken = false →
      ∀ rr, sendLine ev token rr pt = pushStep ev pt) ∧
    (truthyOpt token = false → ∀ rr, sendLine ev token rr pt = .nothing) ∧
    (getPushTarget ev = none → pushStep ev pt = .nothing) ∧
    (∀ s, ev.source = some s → truthyOpt s.userId = true →
      getPushTarget ev = s.userId) ∧
    (∀ s, ev.source = some s → truthyOpt s.userId = false →
      truthyOpt s.groupId = true → getPushTarget ev = s.groupId) ∧
    (∀ s, ev.source = some s → truthyOpt s.userId = false →
      truthyOpt s.groupId = false → truthyOpt s.roomId = true →
      getPushTarget ev = s.roomId) := by
  refine ⟨?_, ?_, ?_, ?_, ?_, ?_, ?_, ?_, ?_⟩
  · intro ht hr; simp [sendLine, ht, hr]
  · intro ht hr; simp [sendLine, ht, hr]
  · intro ht hr; simp [sendLine, ht, hr]
  · intro ht hr rr; simp [sendLine, ht, hr]
  · intro ht rr; simp [sendLine, ht]
  · intro h; simp [pushStep, h]
  · intro s hs hu; simp [getPushTarget, hs, hu]
  · intro s hs hu hg; simp [getPushTarget, hs, hu, hg]
  · intro s hs hu hg hro; simp [getPushTarget, hs, hu, hg, hro]

/-- Witness for C7: a non-ok reply response falls back to a userId push. -/
theorem c7_amended_delivery_witness :
    sendLine evWit (some (("T").data)) (.response false) false = .pushed (("U1").data) := by
  have h := (c7_amended_delivery evWit (some (("T").data)) false).2.1 (by decide) (by decide)
  rw [h]
  decide

/-- Counterexample for C7 as stated: with a reply token present and a
resolvable push target, a transport-level reply failure raises instead of
falling back to push. -/
theorem c7_counterexample :
    sendLine evWit (some (("T").data)) .threw false = .raised ∧
    getPushTarget evWit = some (("U1").data) ∧
    Delivery.raised ≠ Delivery.pushed (("U1").data) :=
  ⟨by decide, by decide, by decide⟩

/-- C9 (corrected): both debug reports are two-run noninterfering in the
API key: two keys of equal length produce identical reports against the
same upstream outcome, so the report depends on the key only through its
length (and the upstream response).  The stronger stated sentence, that
the report NEVER contains the key value as a substring, fails for keys
that collide with the report template, as the counterexample shows. -/
theorem c9_amended_noninterference (k1 k2 : List Char) (up : ChatOutcome)
    (fr : FetchOutcome) (h : k1.length = k2.length) :
    debugReport k1 up = debugReport k2 up ∧ debugReportV2 k1 fr = debugReportV2 k2 fr := by
  cases k1 with
  | nil =>
    cases k2 with
    | nil => exact ⟨rfl, rfl⟩
    | cons b m => simp at h
  | cons a l =>
    cases k2 with
    | nil => simp at h
    | cons b m =>
      constructor
      · simp only [debugReport, List.isEmpty_cons, Bool.false_eq_true, if_false]
        rw [h]
      · simp only [debugReportV2, List.isEmpty_cons, Bool.false_eq_true, if_false]
        rw [h]

/-- Witness for C9: two distinct equal-length keys, identical reports. -/
theorem c9_amended_noninterference_witness :
    debugReport (("sk-aaa").data) ⟨true, ("OK").data, none, none⟩
      = debugReport (("sk-bbb").data) ⟨true, ("OK").data, none, none⟩ :=
  (c9_amended_noninterference (("sk-aaa").data) (("sk-bbb").data)
    ⟨true, ("OK").data, none, none⟩ (.threw (("x").data)) (by decide)).1

/-- Counterexample for C9 as stated: the three-character key h=3 occurs
verbatim inside its own report, because the report prints length=3. -/
theorem c9_counterexample :
    jsIncludes (debugReport (("h=3").data) ⟨true, ("OK").data, none, none⟩)
      (("h=3").data) = true := by
  decide

theorem exceptBind_ok {a : Type} {b : Type} (x : a) (f : a → Except Unit b) :
    (Except.ok x >>= f) = f x := rfl

theorem jsTrimOf_wf {v : Option Json} (h : strOrNullish v = true) :
    jsTrimOf v = .ok (optText v) := by
  match v with
  | none => rfl
  | some .null => rfl
  | some (.str s) => rfl
  | some (.bool b) => simp [strOrNullish] at h
  | some (.num n) => simp [strOrNullish] at h
  | some (.arr l) => simp [strOrNullish] at h
  | some (.obj f) => simp [strOrNullish] at h

theorem firstNonempty_nil : firstNonempty [] = [] := rfl

theorem firstNonempty_cons (x : List Char) (l : List (List Char)) :
    firstNonempty (x :: l) = if x.isEmpty then firstNonempty l else x := by
  unfold firstNonempty
  rw [List.filter_cons]
  by_cases hx : x.isEmpty
  · simp [hx]
  · simp [hx]

theorem firstNonempty_append (a b : List (List Char)) :
    firstNonempty (a ++ b)
      = if (firstNonempty a).isEmpty then firstNonempty b else firstNonempty a := by
  induction a with
  | nil => simp [firstNonempty_nil]
  | cons x xs ih =>
    rw [List.cons_append, firstNonempty_cons, firstNonempty_cons]
    by_cases hx : x.isEmpty
    · simp only [if_pos hx]
      exact ih
    · simp only [if_neg hx]

theorem extractFromContent_wf (content : List Json)
    (h : content.all (fun c => strOrNullish (c.get? (("text").data))) = true) :
    extractFromContent content = .ok (firstNonempty (content.map cText)) := by
  induction content with
  | nil => rfl
  | cons c cs ih =>
    rw [List.all_cons, Bool.and_eq_true] at h
    obtain ⟨h1, h2⟩ := h
    have e : jsTrimOf (c.get? (("text").data)) = .ok (cText c) := jsTrimOf_wf h1
    show (jsTrimOf (c.get? (("text").data)) >>= fun txt =>
      if txt.isEmpty then extractFromContent cs else Except.ok txt) = _
    rw [e, List.map_cons, firstNonempty_cons]
    show (if (cText c).isEmpty then extractFromContent cs else Except.ok (cText c)) = _
    by_cases hc : (cText c).isEmpty
    · rw [if_pos hc, if_pos hc, ih h2]
    · rw [if_neg hc, if_neg hc]

theorem extractFromOutput_wf (output : List Json) (h : output.all itemWF = true) :
    extractFromOutput output
      = .ok (firstNonempty ((output.map itemCandidates).flatten)) := by
  induction output with
  | nil => rfl
  | cons item rest ih =>
    rw [List.all_cons, Bool.and_eq_true] at h
    obtain ⟨h1, h2⟩ := h
    rw [List.map_cons, List.flatten_cons]
    cases hc : item.get? (("content").data) with
    | none =>
      have e1 : extractFromOutput (item :: rest) = extractFromOutput rest := by
        simp only [extractFromOutput, hc]
      have e2 : itemCandidates item = [] := by
        simp only [itemCandidates, hc]
      rw [e1, e2, List.nil_append, ih h2]
    | some v =>
      cases v with
      | arr content =>
        have e1 : extractFromOutput (item :: rest)
            = (extractFromContent content >>= fun txt =>
                if txt.isEmpty then extractFromOutput rest else Except.ok txt) := by
          simp only [extractFromOutput, hc]
        have e2 : itemCandidates item = content.map cText := by
          simp only [itemCandidates, hc]
        have h1c : content.all (fun c => strOrNullish (c.get? (("text").data))) = true := by
          simpa [itemWF, hc] using h1
        rw [e1, extractFromContent_wf content h1c, e2]
        show (if (firstNonempty (content.map cText)).isEmpty then extractFromOutput rest
              else Except.ok (firstNonempty (content.map cText))) = _
        rw [firstNonempty_append]
        by_cases hcc : (firstNonempty (content.map cText)).isEmpty
        · rw [if_pos hcc, if_pos hcc, ih h2]
        · rw [if_neg hcc, if_neg hcc]
      | null =>
        have e1 : extractFromOutput (item :: rest) = extractFromOutput rest := by
          simp only [extractFromOutput, hc]
        have e2 : itemCandidates item = [] := by
          simp only [itemCandidates, hc]
        rw [e1, e2, List.nil_append, ih h2]
      | bool b =>
        have e1 : extractFromOutput (item :: rest) = extractFromOutput rest := by
          simp only [extractFromOutput, hc]
        have e2 : itemCandidates item = [] := by
          simp only [itemCandidates, hc]
        rw [e1, e2, List.nil_append, ih h2]
      | num n =>
        have e1 : extractFromOutput (item :: rest) = extractFromOutput rest := by
          simp only [extractFromOutput, hc]
        have e2 : itemCandidates item = [] := by
          simp only [itemCandidates, hc]
        rw [e1, e2, List.nil_append, ih h2]
      | str s =>
        have e1 : extractFromOutput (item :: rest) = extractFromOutput rest := by
          simp only [extractFromOutput, hc]
        have e2 : itemCandidates item = [] := by
          simp only [itemCandidates, hc]
        rw [e1, e2, List.nil_append, ih h2]
      | obj f =>
        have e1 : extractFromOutput (item :: rest) = extractFromOutput rest := by
          simp only [extractFromOutput, hc]
        have e2 : itemCandidates item = [] := by
          simp only [itemCandidates, hc]
        rw [e1, e2, List.nil_append, ih h2]

theorem callOpenAIExtract_wf (json : Json) (hwf : jsonTextsWF json = true) :
    callOpenAIExtract json = .ok (firstCandidate json) := by
  rw [jsonTextsWF, Bool.and_eq_true] at hwf
  obtain ⟨hw1, hw2⟩ := hwf
  have htop : jsTrimOf (json.get? (("output_text").data)) = .ok (topText json) :=
    jsTrimOf_wf hw1
  show (jsTrimOf (json.get? (("output_text").data)) >>= fun out =>
    if !out.isEmpty then Except.ok (⟨true, out⟩ : OutcomeV2)
    else (extractTextFromResponses json >>= fun alt =>
      if !alt.isEmpty then Except.ok (⟨true, alt⟩ : OutcomeV2)
      else Except.ok (⟨false, ("no output_text").data⟩ : OutcomeV2))) = _
  rw [htop, exceptBind_ok]
  unfold firstCandidate candidateList
  by_cases ht : (topText json).isEmpty
  · rw [firstNonempty_cons, if_pos ht]
    simp only [ht, Bool.not_true, Bool.false_eq_true, if_false]
    cases hout : json.get? (("output").data) with
    | none =>
      have e : extractTextFromResponses json = .ok [] := by
        simp only [extractTextFromResponses, hout]
      rw [e, exceptBind_ok]
      simp [firstNonempty_nil]
    | some v =>
      cases v with
      | arr output =>
        have hall : output.all itemWF = true := by simpa [hout] using hw2
        have e : extractTextFromResponses json
            = .ok (firstNonempty ((output.map itemCandidates).flatten)) := by
          simp only [extractTextFromResponses, hout]
          exact extractFromOutput_wf output hall
        rw [e, exceptBind_ok]
        by_cases ha : (firstNonempty ((output.map itemCandidates).flatten)).isEmpty
        · simp [hout, ha]
        · simp [hout, ha]
      | null =>
        have e : extractTextFromResponses json = .ok [] := by
          simp only [extractTextFromResponses, hout]
        rw [e, exceptBind_ok]
        simp [firstNonempty_nil]
      | bool b =>
        have e : extractTextFromResponses json = .ok [] := by
          simp only [extractTextFromResponses, hout]
        rw [e, exceptBind_ok]
        simp [firstNonempty_nil]
      | num n =>
        have e : extractTextFromResponses json = .ok [] := by
          simp only [extractTextFromResponses, hout]
        rw [e, exceptBind_ok]
        simp [firstNonempty_nil]
      | str s =>
        have e : extractTextFromResponses json = .ok [] := by
          simp only [extractTextFromResponses, hout]
        rw [e, exceptBind_ok]
        simp [firstNonempty_nil]
      | obj f =>
        have e : extractTextFromResponses json = .ok [] := by
          simp only [extractTextFromResponses, hout]
        rw [e, exceptBind_ok]
        simp [firstNonempty_nil]
  · rw [firstNonempty_cons, if_neg ht]
    simp [ht]

/-- C5 (corrected): on a successful response the extraction uses the
candidate locations in a fixed priority order (top-level output_text,
then the content items of the output array, in order) but returns the
FIRST non-empty trimmed string value, failing with no output_text when
all candidates are empty.  The stated claim, that ALL values found are
concatenated newline-joined, is refuted by the counterexample; content
text values that are not strings throw and are reported as a generic
error, they are not extracted. -/
theorem c5_amended_first_candidate (st : Nat) (json : Json)
    (hst : statusOk st = true) (hwf : jsonTextsWF json = true) :
    callOpenAI (.response st (some json)) = firstCandidate json := by
  show (if !(statusOk st) then (⟨false, ("OpenAI ").data ++ numToString st⟩ : OutcomeV2)
    else match callOpenAIExtract json with
      | .ok o => o
      | .error _ => ⟨false, ("error").data⟩) = _
  rw [hst, callOpenAIExtract_wf json hwf]
  simp

/-- Witness for C5: with an empty top candidate and an empty first content
candidate, the second content text B is returned. -/
theorem c5_amended_first_candidate_witness :
    statusOk 200 = true ∧
    jsonTextsWF (Json.obj [((("output_text").data), .str (("  ").data)),
      ((("output").data), .arr [Json.obj [((("content").data), .arr [
        Json.obj [((("text").data), .str (("  ").data))],
        Json.obj [((("text").data), .str (("B").data))]])]])]) = true ∧
    callOpenAI (.response 200 (some (Json.obj [((("output_text").data), .str (("  ").data)),
      ((("output").data), .arr [Json.obj [((("content").data), .arr [
        Json.obj [((("text").data), .str (("  ").data))],
        Json.obj [((("text").data), .str (("B").data))]])]])])))
      = OutcomeV2.mk true (("B").data) := by
  refine ⟨by decide, by decide, ?_⟩
  rw [c5_amended_first_candidate 200 _ (by decide) (by decide)]
  decide

/-- Counterexample for C5 as stated: a response holding two non-empty
content texts A and B yields only A, not the newline-joined
concatenation A, newline, B demanded by the claim (specExtractAll is the
claim wording applied to the same candidate list). -/
theorem c5_counterexample :
    callOpenAIExtract (Json.obj [((("output").data), .arr [Json.obj [((("content").data),
        .arr [Json.obj [((("text").data), .str (("A").data))],
              Json.obj [((("text").data), .str (("B").data))]])]])])
      = .ok (OutcomeV2.mk true (("A").data)) ∧
    specExtractAll (Json.obj [((("output").data), .arr [Json.obj [((("content").data),
        .arr [Json.obj [((("text").data), .str (("A").data))],
              Json.obj [((("text").data), .str (("B").data))]])]])])
      = ("A\nB").data ∧
    (("A").data) ≠ (("A\nB").data) :=
  ⟨rfl, rfl, by decide⟩

theorem ne_nil_of_isEmpty_false {l : List Char} (h : l.isEmpty = false) : l ≠ [] := by
  cases l with
  | nil => simp at h
  | cons a t => simp

theorem chatOk_cases (st : Nat) (json : Json) (hs2 : (!(statusOk st)) = false) :
    (∃ s, chatContent json = some (.str s) ∧ (jsTrim s).isEmpty = false ∧
      callOpenAIChatCompletions (.response st (some json)) = ⟨true, jsTrim s, none, none⟩) ∨
    callOpenAIChatCompletions (.response st (some json)) =
      ⟨false, ("no choices[0].message.content").data, some (("parse").data),
        some (("parse: content missing").data)⟩ := by
  cases hcc : chatContent json with
  | none => right; simp [callOpenAIChatCompletions, hs2, hcc]
  | some v =>
    cases v with
    | str s =>
      by_cases he : (jsTrim s).isEmpty
      · right; simp [callOpenAIChatCompletions, hs2, hcc, he]
      · refine Or.inl ⟨s, rfl, by simpa using he, ?_⟩
        simp [callOpenAIChatCompletions, hs2, hcc, he]
    | null => right; simp [callOpenAIChatCompletions, hs2, hcc]
    | bool b => right; simp [callOpenAIChatCompletions, hs2, hcc]
    | num n => right; simp [callOpenAIChatCompletions, hs2, hcc]
    | arr l => right; simp [callOpenAIChatCompletions, hs2, hcc]
    | obj f => right; simp [callOpenAIChatCompletions, hs2, hcc]

/-- C6 (corrected): every outcome of callOpenAIChatCompletions is exactly
one of: success with non-empty trimmed text and no reason; an http-reason
failure carrying the status in its text on a delivered non-2xx status; a
parse-reason failure when an ok-status body parsed but no content string
was found (or it was blank); a timeout-reason failure when the awaited
fetch rejected with AbortError; and a fetch-reason failure on every other
rejection.  The stated claim names the parse and fetch reasons "empty" and
"network", which never occur in the code, as the counterexample shows;
the claim also calls the fetch arm a transport error, although an
unparseable ok-status body lands there too.  The second-variant client
callOpenAI draws the same four failure distinctions but only through its
text field, with no structured reason at all. -/
theorem c6_amended_outcome_taxonomy (fr : FetchOutcome) :
    ((callOpenAIChatCompletions fr).ok = true ∧ (callOpenAIChatCompletions fr).text ≠ [] ∧
        (callOpenAIChatCompletions fr).reason = none ∨
      (callOpenAIChatCompletions fr).ok = false ∧
        ((callOpenAIChatCompletions fr).reason = some (("http").data) ∨
         (callOpenAIChatCompletions fr).reason = some (("parse").data) ∨
         (callOpenAIChatCompletions fr).reason = some (("timeout").data) ∨
         (callOpenAIChatCompletions fr).reason = some (("fetch").data))) ∧
    (fr = .threw (("AbortError").data) →
      callOpenAIChatCompletions fr =
        ⟨false, ("timeout").data, some (("timeout").data), some (("timeout").data)⟩) ∧
    (∀ name, fr = .threw name → name ≠ ("AbortError").data →
      callOpenAIChatCompletions fr =
        ⟨false, ("fetch error").data, some (("fetch").data), some (("fetch error").data)⟩) ∧
    (∀ st body, fr = .response st body → statusOk st = false →
      (callOpenAIChatCompletions fr).ok = false ∧
      (callOpenAIChatCompletions fr).reason = some (("http").data) ∧
      (callOpenAIChatCompletions fr).text = ("OpenAI ").data ++ numToString st) ∧
    (∀ st json, fr = .response st (some json) → statusOk st = true →
      ((callOpenAIChatCompletions fr).ok = true ∧
        (callOpenAIChatCompletions fr).text ≠ []) ∨
      (callOpenAIChatCompletions fr).reason = some (("parse").data)) := by
  cases fr with
  | threw name =>
    by_cases hn : name = ("AbortError").data
    · subst hn
      have e : callOpenAIChatCompletions (.threw (("AbortError").data)) =
          ⟨false, ("timeout").data, some (("timeout").data), some (("timeout").data)⟩ := rfl
      refine ⟨?_, fun _ => e, ?_, ?_, ?_⟩
      · rw [e]
        exact Or.inr ⟨rfl, Or.inr (Or.inr (Or.inl rfl))⟩
      · intro name2 h hne
        cases h
        exact absurd rfl hne
      · intro st body h
        exact FetchOutcome.noConfusion h
      · intro st json h
        exact FetchOutcome.noConfusion h
    · have hn2 : (name == ("AbortError").data) = false := by
        simp only [beq_eq_false_iff_ne, ne_eq]
        exact hn
      have e : callOpenAIChatCompletions (.threw name) =
          ⟨false, ("fetch error").data, some (("fetch").data), some (("fetch error").data)⟩ := by
        simp [callOpenAIChatCompletions, hn2]
      refine ⟨?_, ?_, fun _ h _ => by cases h; exact e, ?_, ?_⟩
      · rw [e]
        exact Or.inr ⟨rfl, Or.inr (Or.inr (Or.inr rfl))⟩
      · intro h
        cases h
        exact absurd rfl hn
      · intro st body h
        exact FetchOutcome.noConfusion h
      · intro st json h
        exact FetchOutcome.noConfusion h
  | response st body =>
    by_cases hs : statusOk st = true
    · have hs2 : (!(statusOk st)) = false := by rw [hs]; rfl
      cases body with
      | none =>
        have e : callOpenAIChatCompletions (.response st none) =
            ⟨false, ("fetch error").data, some (("fetch").data),
              some (("fetch error").data)⟩ := by
          simp [callOpenAIChatCompletions, hs2]
        refine ⟨?_, ?_, ?_, ?_, ?_⟩
        · rw [e]
          exact Or.inr ⟨rfl, Or.inr (Or.inr (Or.inr rfl))⟩
        · intro h
          exact FetchOutcome.noConfusion h
        · intro name h
          exact fun _ => FetchOutcome.noConfusion h
        · intro st2 body2 h hsf
          injection h with h1 h2
          subst h1
          rw [hs] at hsf
          cases hsf
        · intro st2 json2 h
          injection h with h1 h2
          exact Option.noConfusion h2
      | some json =>
        refine ⟨?_, ?_, ?_, ?_, ?_⟩
        · rcases chatOk_cases st json hs2 with ⟨s, hcc, he, e2⟩ | e2
          · rw [e2]
            exact Or.inl ⟨rfl, ne_nil_of_isEmpty_false he, rfl⟩
          · rw [e2]
            exact Or.inr ⟨rfl, Or.inr (Or.inl rfl)⟩
        · intro h
          exact FetchOutcome.noConfusion h
        · intro name h
          exact fun _ => FetchOutcome.noConfusion h
        · intro st2 body2 h hsf
          injection h with h1 h2
          subst h1
          rw [hs] at hsf
          cases hsf
        · intro st2 json2 h _
          injection h with h1 h2
          injection h2 with h3
          subst h1
          subst h3
          rcases chatOk_cases st json hs2 with ⟨s, hcc, he, e2⟩ | e2
          · rw [e2]
            exact Or.inl ⟨rfl, ne_nil_of_isEmpty_false he⟩
          · rw [e2]
            exact Or.inr rfl
    · have hsf : statusOk st = false := by
        cases h2 : statusOk st with
        | false => rfl
        | true => exact absurd h2 hs
      have hs2 : (!(statusOk st)) = true := by rw [hsf]; rfl
      have e : (callOpenAIChatCompletions (.response st body)).ok = false ∧
          (callOpenAIChatCompletions (.response st body)).reason = some (("http").data) ∧
          (callOpenAIChatCompletions (.response st body)).text
            = ("OpenAI ").data ++ numToString st := by
        simp [callOpenAIChatCompletions, hs2]
      refine ⟨?_, ?_, ?_, ?_, ?_⟩
      · exact Or.inr ⟨e.1, Or.inl e.2.1⟩
      · intro h
        exact FetchOutcome.noConfusion h
      · intro name h
        exact fun _ => FetchOutcome.noConfusion h
      · intro st2 body2 h _
        injection h with h1 h2
        subst h1
        exact e
      · intro st2 json2 h htrue
        injection h with h1 h2
        subst h1
        rw [htrue] at hsf
        cases hsf

/-- Witness for C6: the AbortError rejection is classified as the timeout
outcome. -/
theorem c6_amended_outcome_taxonomy_witness :
    callOpenAIChatCompletions (.threw (("AbortError").data)) =
      ⟨false, ("timeout").data, some (("timeout").data), some (("timeout").data)⟩ :=
  (c6_amended_outcome_taxonomy (.threw (("AbortError").data))).2.1 rfl

/-- Counterexample for C6 as stated: the typed reason of a parsed body with
no content is the literal parse, not empty, and the typed reason of a
non-abort rejection is the literal fetch, not network. -/
theorem c6_counterexample :
    (callOpenAIChatCompletions (.response 200 (some (.obj [])))).reason
      = some (("parse").data) ∧
    some (("parse").data) ≠ some (("empty").data) ∧
    (callOpenAIChatCompletions (.threw (("TypeError").data))).reason
      = some (("fetch").data) ∧
    some (("fetch").data) ≠ some (("network").data) :=
  ⟨rfl, by decide, rfl, by decide⟩

end Webhook
